import Mathlib

/-!
Verification of the habit-series AI orchestration pipeline.

This development gives a shallow embedding of the core of the repository:
the defensive output validator (`validateAIOutput`), the provider router
(`AIProviderRouter.getAdapterForModel`), the Gemini energy accounting
(`calculateGeminiEnergy`), the domain persistence policy
(`isHabitSeriesFinal`), the `HabitSeries` entity factory
(`HabitSeries.fromAIOutput`), and the orchestration use case
(`createHabitSeries`).

JavaScript runtime values are modelled by the inductive type `JSVal`;
property access, truthiness, `typeof`, and thrown exceptions are modelled
explicitly so that the defensive guards in the source are meaningful.
`JSON.parse` is modelled by an executable strict JSON parser (`jsonParse`).
-/

namespace HabitApp

/-- A JavaScript runtime value, as produced by `JSON.parse` or passed across
the module boundaries of the pipeline.  Numbers are kept exactly as
`mantissa * 10 ^ exp10` (JSON decimals), which is enough to decide JS
truthiness (`0` is the only falsy numeric JSON value). -/
inductive JSVal where
  | null
  | undefined
  | bool (b : Bool)
  | num (mantissa : Int) (exp10 : Int)
  | str (s : String)
  | arr (elems : List JSVal)
  | obj (fields : List (String × JSVal))

/-- JS truthiness: `null`, `undefined`, `false`, `0`, and `""` are falsy;
every array and object is truthy. -/
def isFalsy : JSVal → Bool
  | .null => true
  | .undefined => true
  | .bool b => !b
  | .num m _ => m == 0
  | .str s => s.isEmpty
  | .arr _ => false
  | .obj _ => false

/-- Whether `typeof v === 'object'` holds in JS (true for `null`, arrays and
plain objects). -/
def typeofObject : JSVal → Bool
  | .null => true
  | .arr _ => true
  | .obj _ => true
  | _ => false

/-- Whether `typeof v === 'string'` holds. -/
def isStringV : JSVal → Bool
  | .str _ => true
  | _ => false

/-- Whether the value is `null` or `undefined` (property access throws). -/
def isNullish : JSVal → Bool
  | .null => true
  | .undefined => true
  | _ => false

/-- Total property lookup.  On a plain object the last binding of the key
wins (the semantics of duplicate keys in `JSON.parse`); on any other value
the named property reads as `undefined`.  (Array index/length properties are
handled structurally where the source uses them.) -/
def getField (v : JSVal) (k : String) : JSVal :=
  match v with
  | .obj fields => fields.foldl (fun acc p => if p.1 == k then p.2 else acc) .undefined
  | _ => .undefined

/-- The classes of exception the embedded code can throw. -/
inductive ErrorClass where
  | validationError
  | typeError
  | genericError
deriving DecidableEq

/-- A thrown JS error: its class and its message. -/
structure JSError where
  cls : ErrorClass
  message : String
deriving DecidableEq

/-- Property access as the JS runtime performs it: reading a property of
`null` or `undefined` throws a TypeError, otherwise it yields `getField`. -/
def getFieldE (v : JSVal) (k : String) : Except JSError JSVal :=
  if isNullish v then
    .error ⟨.typeError, "Cannot read properties of null or undefined (reading " ++ k ++ ")"⟩
  else
    .ok (getField v k)

/-- The verdict object returned by `validateAIOutput`:
either `\x7b valid: true \x7d` or `\x7b valid: false, error \x7d`. -/
inductive Verdict where
  | valid
  | invalid (error : String)
deriving DecidableEq

/-- The whitespace characters recognised by `String.prototype.trim` (the ones
expressible here: space, tab, line feed, carriage return, vertical tab, form
feed, and no-break space). -/
def isJsSpace (c : Char) : Bool :=
  c == ' ' || c == '\t' || c == '\n' || c == '\r' || c == '\x0b' || c == '\x0c' ||
  c == '\u00A0'

/-- The check `typeof x === 'string' && x.trim()` is truthy: `x` is a string
and its `trim()` is non-empty, i.e. some character is not trim-whitespace.
(`.trim()` is only ever called after the `typeof` test, so this helper never
models a throwing access.) -/
def strFieldOk : JSVal → Bool
  | .str s => s.data.any (fun c => !(isJsSpace c))
  | _ => false

/-- The per-action loop of `validateAIOutput` (source lines 236-250):
each action is checked in sequence order for being a truthy object and for
non-empty trimmed `name`, `description` and `difficulty` strings, returning
the first violation found. -/
def validateActionsE : List JSVal → Nat → Except JSError Verdict
  | [], _ => .ok .valid
  | action :: rest, i =>
    if isFalsy action || !(typeofObject action) then
      .ok (.invalid ("actions[" ++ toString i ++ "] is not an object"))
    else
      (getFieldE action "name").bind fun nm =>
      if !(strFieldOk nm) then
        .ok (.invalid ("actions[" ++ toString i ++ "].name invalid"))
      else
        (getFieldE action "description").bind fun ds =>
        if !(strFieldOk ds) then
          .ok (.invalid ("actions[" ++ toString i ++ "].description invalid"))
        else
          (getFieldE action "difficulty").bind fun df =>
          if !(strFieldOk df) then
            .ok (.invalid ("actions[" ++ toString i ++ "].difficulty invalid"))
          else
            validateActionsE rest (i + 1)

/-- Manual defensive validation of AI output (`validateAIOutput` in
`CreativeHabitSeriesPrompt.js`, lines 215-253).  The result is `Except`
over a thrown `JSError` so that the absence of runtime exceptions is a
theorem rather than an artifact of the embedding. -/
def validateAIOutput (data : JSVal) : Except JSError Verdict :=
  if isFalsy data || !(typeofObject data) then
    .ok (.invalid "Output is not an object")
  else
    (getFieldE data "title").bind fun title =>
    if !(strFieldOk title) then
      .ok (.invalid "Invalid or missing title")
    else
      (getFieldE data "description").bind fun desc =>
      if !(strFieldOk desc) then
        .ok (.invalid "Invalid or missing description")
      else
        (getFieldE data "actions").bind fun actions =>
        match actions with
        | .arr xs =>
          if xs.length < 3 || xs.length > 5 then
            .ok (.invalid "actions length out of bounds")
          else
            validateActionsE xs 0
        | _ => .ok (.invalid "actions must be an array")

/-! ### A model of strict `JSON.parse`

The orchestration use case parses the normalization pass's output with
`JSON.parse` (an ECMAScript builtin, so not part of the repository).  It is
modelled here by an executable recursive-descent parser over the character
list, covering the full JSON grammar: literals, decimal numbers (kept exact
as mantissa and power of ten), strings with escapes, arrays and objects.
Totality comes from a fuel counter bounded by the input length. -/

/-- JSON whitespace: space, tab, line feed, carriage return. -/
def skipWs : List Char → List Char
  | c :: cs =>
    if c == ' ' || c == '\t' || c == '\n' || c == '\r' then skipWs cs else c :: cs
  | [] => []

/-- Value of a hexadecimal digit, if the character is one. -/
def hexVal (c : Char) : Option Nat :=
  if '0' ≤ c && c ≤ '9' then some (c.toNat - 48)
  else if 'a' ≤ c && c ≤ 'f' then some (c.toNat - 97 + 10)
  else if 'A' ≤ c && c ≤ 'F' then some (c.toNat - 65 + 10)
  else none

/-- Body of a JSON string after the opening quote: handles the escape
sequences of the grammar and refuses raw control characters. -/
def parseStrBody : Nat → List Char → List Char → Option (String × List Char)
  | 0, _, _ => none
  | _ + 1, '"' :: cs, acc => some (String.mk acc.reverse, cs)
  | fuel + 1, '\\' :: e :: cs, acc =>
    match e with
    | '"' => parseStrBody fuel cs ('"' :: acc)
    | '\\' => parseStrBody fuel cs ('\\' :: acc)
    | '/' => parseStrBody fuel cs ('/' :: acc)
    | 'b' => parseStrBody fuel cs ('\x08' :: acc)
    | 'f' => parseStrBody fuel cs ('\x0c' :: acc)
    | 'n' => parseStrBody fuel cs ('\n' :: acc)
    | 'r' => parseStrBody fuel cs ('\r' :: acc)
    | 't' => parseStrBody fuel cs ('\t' :: acc)
    | 'u' =>
      match cs with
      | a :: b :: c :: d :: cs2 =>
        match hexVal a, hexVal b, hexVal c, hexVal d with
        | some ha, some hb, some hc, some hd =>
          parseStrBody fuel cs2 (Char.ofNat (((ha * 16 + hb) * 16 + hc) * 16 + hd) :: acc)
        | _, _, _, _ => none
      | _ => none
    | _ => none
  | fuel + 1, c :: cs, acc =>
    if c.toNat < 32 then none else parseStrBody fuel cs (c :: acc)
  | _, [], _ => none

/-- Numeric value of a list of decimal digits. -/
def digitsVal (ds : List Char) : Nat :=
  ds.foldl (fun n c => n * 10 + (c.toNat - 48)) 0

/-- Optional fraction part: `.` followed by at least one digit. -/
def parseFrac : List Char → Option (List Char × List Char)
  | '.' :: r =>
    let p := r.span Char.isDigit
    if p.1.isEmpty then none else some (p.1, p.2)
  | cs => some ([], cs)

/-- Exponent digits with optional sign, after `e` or `E`. -/
def parseExpRest (r : List Char) : Option (Int × List Char) :=
  let q : Int × List Char :=
    match r with
    | '+' :: r2 => (1, r2)
    | '-' :: r2 => (-1, r2)
    | _ => (1, r)
  let p := q.2.span Char.isDigit
  if p.1.isEmpty then none else some (q.1 * (digitsVal p.1 : Int), p.2)

/-- Optional exponent part of a JSON number. -/
def parseExp : List Char → Option (Int × List Char)
  | 'e' :: r => parseExpRest r
  | 'E' :: r => parseExpRest r
  | cs => some (0, cs)

/-- A JSON number: optional minus, integer part without leading zeros,
optional fraction, optional exponent; the value is kept exactly. -/
def parseNum (cs : List Char) : Option (JSVal × List Char) :=
  let q : Bool × List Char :=
    match cs with
    | '-' :: r => (true, r)
    | _ => (false, cs)
  let p := q.2.span Char.isDigit
  if p.1.isEmpty then none
  else if 1 < p.1.length && p.1.head? == some '0' then none
  else
    match parseFrac p.2 with
    | none => none
    | some (fracDs, cs3) =>
      match parseExp cs3 with
      | none => none
      | some (e, cs4) =>
        let mag : Int := (digitsVal (p.1 ++ fracDs) : Int)
        some (.num (if q.1 then -mag else mag) (e - fracDs.length), cs4)

mutual

/-- One JSON value, by recursive descent with fuel. -/
def parseVal : Nat → List Char → Option (JSVal × List Char)
  | 0, _ => none
  | fuel + 1, cs =>
    match skipWs cs with
    | [] => none
    | '"' :: rest =>
      match parseStrBody (rest.length + 1) rest [] with
      | some (s, rest2) => some (.str s, rest2)
      | none => none
    | '\x7b' :: rest =>
      match skipWs rest with
      | '\x7d' :: rest2 => some (.obj [], rest2)
      | rest2 => parseMembers fuel rest2 []
    | '[' :: rest =>
      match skipWs rest with
      | ']' :: rest2 => some (.arr [], rest2)
      | rest2 => parseElems fuel rest2 []
    | 't' :: rest =>
      if rest.take 3 = ['r', 'u', 'e'] then some (.bool true, rest.drop 3) else none
    | 'f' :: rest =>
      if rest.take 4 = ['a', 'l', 's', 'e'] then some (.bool false, rest.drop 4) else none
    | 'n' :: rest =>
      if rest.take 3 = ['u', 'l', 'l'] then some (.null, rest.drop 3) else none
    | c :: rest =>
      if c == '-' || c.isDigit then parseNum (c :: rest) else none

/-- The members of a JSON object, positioned at a key (after any leading
whitespace was produced by the caller for the first member). -/
def parseMembers : Nat → List Char → List (String × JSVal) →
    Option (JSVal × List Char)
  | 0, _, _ => none
  | fuel + 1, cs, acc =>
    match skipWs cs with
    | '"' :: rest =>
      match parseStrBody (rest.length + 1) rest [] with
      | none => none
      | some (key, rest2) =>
        match skipWs rest2 with
        | ':' :: rest3 =>
          match parseVal fuel rest3 with
          | none => none
          | some (v, rest4) =>
            match skipWs rest4 with
            | ',' :: rest5 => parseMembers fuel rest5 (acc ++ [(key, v)])
            | '\x7d' :: rest5 => some (.obj (acc ++ [(key, v)]), rest5)
            | _ => none
        | _ => none
    | _ => none

/-- The elements of a JSON array, positioned at an element. -/
def parseElems : Nat → List Char → List JSVal → Option (JSVal × List Char)
  | 0, _, _ => none
  | fuel + 1, cs, acc =>
    match parseVal fuel cs with
    | none => none
    | some (v, rest) =>
      match skipWs rest with
      | ',' :: rest2 => parseElems fuel rest2 (acc ++ [v])
      | ']' :: rest2 => some (.arr (acc ++ [v]), rest2)
      | _ => none

end

/-- Strict `JSON.parse`: one complete JSON value and nothing but trailing
whitespace.  `none` models a thrown `SyntaxError`.  The fuel `length + 1`
suffices because every descent first consumes at least one character. -/
def jsonParse (s : String) : Option JSVal :=
  match parseVal (s.length + 1) s.data with
  | some (v, rest) => if (skipWs rest).isEmpty then some v else none
  | none => none

/-! ### Provider router (`AIProviderRouter.getAdapterForModel`) -/

/-- The concrete provider adapters held by the router. -/
inductive AdapterKind where
  | openai
  | gemini
deriving DecidableEq

/-- String comparison used for the router's family matching: the model
identifier starts with the given token (case-sensitive, exact). -/
def strStartsWith (s pre : String) : Bool :=
  pre.data.isPrefixOf s.data

/-- Adapter resolution (`AIProviderRouter.getAdapterForModel`, source lines
636-658).  A missing, falsy or non-string model throws
`INVALID_MODEL`; identifiers starting `gpt-` or `o1-` resolve to the OpenAI
adapter, identifiers starting `gemini-` to the Gemini adapter; anything else
throws `UNKNOWN_MODEL_PROVIDER`.  There is no default-adapter branch: every
path either returns a resolved adapter or throws. -/
def getAdapterForModel (model : JSVal) : Except JSError AdapterKind :=
  match model with
  | .str s =>
    if s.isEmpty then
      .error ⟨.genericError, "INVALID_MODEL: Model name is required"⟩
    else if strStartsWith s "gpt-" || strStartsWith s "o1-" then
      .ok .openai
    else if strStartsWith s "gemini-" then
      .ok .gemini
    else
      .error ⟨.genericError,
        "UNKNOWN_MODEL_PROVIDER: No adapter configured for model " ++ s⟩
  | _ => .error ⟨.genericError, "INVALID_MODEL: Model name is required"⟩

/-! ### Gemini adapter energy accounting -/

/-- Rounding of `a / b` to the nearest integer, halves up, computed exactly
on naturals: `round (a / b) = (2 a + b) / (2 b)` with integer division.
This renders `Math.round` applied to the adapter's formulas exactly (the
formulas are ratios of integers; no half-way case arises for them with odd
denominator, so the binary floating-point evaluation agrees). -/
def roundDiv (a b : Nat) : Nat :=
  (2 * a + b) / (2 * b)

/-- Ceiling of `a / b` on naturals, rendering `Math.ceil`. -/
def ceilDiv (a b : Nat) : Nat :=
  (a + b - 1) / b

/-- Token estimate for Gemini (`calculateGeminiTokens`, source lines
724-727): `0` for a missing or non-string text, otherwise
`Math.round(text.length / 3.7)`, i.e. the nearest integer to
`10 * length / 37`. -/
def calculateGeminiTokens (text : String) : Nat :=
  if text.isEmpty then 0 else roundDiv (10 * text.length) 37

/-- Energy accounting for a Gemini call (`calculateGeminiEnergy`, source
lines 738-751): `energy = ceil((responseTokens + promptTokens * 0.30) / 100)`
with `totalTokens = Math.round(tokensResponse + tokensPrompt * 0.30)`
computed first, all from the prompt and response texts alone. -/
def calculateGeminiEnergy (prompt response : String) : Nat :=
  let tokensPrompt := calculateGeminiTokens prompt
  let tokensResponse := calculateGeminiTokens response
  let totalTokens := roundDiv (10 * tokensResponse + 3 * tokensPrompt) 10
  ceilDiv totalTokens 100

/-! ### Domain persistence policy (`PublicHabitSeriesPolicy.js`) -/

/-- Persistence-eligibility policy (`isHabitSeriesFinal`, source lines
52-54): only the structural pass identifier is final. -/
def isHabitSeriesFinal (functionType : String) : Bool :=
  functionType == "habit_series_structure"

/-! ### The `HabitSeries` domain entity (`HabitSeries.ts`) -/

/-- The rank value object referenced by the entity (`Rank.BRONZE` is the
safe default applied by the AI factory). -/
inductive Rank where
  | bronze
  | silver
  | golden
  | diamond
deriving DecidableEq

/-- Modelled from the spec: `Action.ts` (the `Action` value object and its
`AIActionInput` shape) is not in the repository subset; per the data model,
an action carries `name`, `description` and `difficulty` strings. -/
structure AIActionInput where
  name : String
  description : String
  difficulty : String

/-- Modelled from the spec: the `Action` value object, an action with its
generated identifier. -/
structure Action where
  id : String
  name : String
  description : String
  difficulty : String

/-- Modelled from the spec: `Action.fromAIOutput(actionInput, id)` converts
an AI action input into the domain value object under the given id. -/
def Action.fromAIOutput (input : AIActionInput) (id : String) : Action :=
  ⟨id, input.name, input.description, input.difficulty⟩

/-- The `AIHabitSeriesInput` interface: minimal input structure expected
from AI output. -/
structure AIHabitSeriesInput where
  title : String
  description : String
  actions : List AIActionInput

/-- The `HabitSeries` entity.  `new Date()` instants are modelled as the
explicit creation instant passed to the factory. -/
structure HabitSeries where
  id : String
  title : String
  description : String
  actions : List Action
  rank : Rank
  totalScore : Int
  createdAt : Int
  lastActivityAt : Int

/-- Factory for a `HabitSeries` from AI-generated content
(`HabitSeries.fromAIOutput`, `src/unnamed/part_000` lines 99-116), with the
declared two-parameter signature: converts each AI action in order under id
`id_action_index`, and applies the safe defaults `Rank.BRONZE` and score
`0`, with both timestamps set to the creation instant `now`. -/
def HabitSeries.fromAIOutput (id : String) (input : AIHabitSeriesInput)
    (now : Int) : HabitSeries :=
  { id := id
    title := input.title
    description := input.description
    actions := input.actions.enum.map fun p =>
      Action.fromAIOutput p.2 (id ++ "_action_" ++ toString p.1)
    rank := Rank.bronze
    totalScore := 0
    createdAt := now
    lastActivityAt := now }

/-! ### The orchestration use case (`createHabitSeries`)

The use case is executed at the JavaScript level, so the entity factory is
also rendered here with JS runtime semantics: the use case passes the parsed
value as the factory's first (`id`) parameter and nothing for `input`, and
the factory's behavior on an arbitrary `input` value follows the JS
evaluation of `input.actions.map(...)`. -/

/-- Rendering of a JS value inside a template string (used only for the
generated per-action ids, which no theorem inspects; non-string, non-literal
cases are abbreviated). -/
def jsTemplateStr : JSVal → String
  | .str s => s
  | .null => "null"
  | .undefined => "undefined"
  | .bool b => if b then "true" else "false"
  | .num m e => toString m ++ "e" ++ toString e
  | .arr _ => ""
  | .obj _ => "[object Object]"

/-- A constructed action at the JS level: the generated id together with the
raw AI action value it wraps. -/
structure ActionJS where
  id : String
  data : JSVal

/-- The entity constructed at the JS level (field values are whatever the
factory read off the untrusted input; timestamps are the creation
instant). -/
structure HabitSeriesJS where
  id : JSVal
  title : JSVal
  description : JSVal
  actions : List ActionJS
  rank : Rank
  totalScore : Int
  createdAt : Int
  lastActivityAt : Int

/-- `HabitSeries.fromAIOutput` under JS runtime semantics, for arbitrary
argument values: evaluating `input.actions.map(...)` throws a TypeError when
`input` is nullish or `input.actions` is not an array; otherwise the entity
is built with `Rank.BRONZE`, score `0`, and both timestamps at `now`. -/
def fromAIOutputJS (id input : JSVal) (now : Int) : Except JSError HabitSeriesJS :=
  if isNullish input then
    .error ⟨.typeError, "Cannot read properties of undefined (reading actions)"⟩
  else
    match getField input "actions" with
    | .arr xs =>
      .ok { id := id
            title := getField input "title"
            description := getField input "description"
            actions := xs.enum.map fun p =>
              ⟨jsTemplateStr id ++ "_action_" ++ toString p.1, p.2⟩
            rank := Rank.bronze
            totalScore := 0
            createdAt := now
            lastActivityAt := now }
    | _ => .error ⟨.typeError, "input.actions.map is not a function"⟩

/-- The DTO shape produced by `toDTO()` (spec section 6); the two `Date`
fields are modelled as their instants. -/
structure HabitSeriesDTO where
  id : JSVal
  title : JSVal
  description : JSVal
  actions : List ActionJS
  rank : Rank
  totalScore : Int
  createdAt : Int
  lastActivityAt : Int

/-- Field-for-field DTO mapping (`toDTO`, `src/unnamed/part_000` lines
167-178). -/
def HabitSeriesJS.toDTO (h : HabitSeriesJS) : HabitSeriesDTO :=
  ⟨h.id, h.title, h.description, h.actions, h.rank, h.totalScore,
    h.createdAt, h.lastActivityAt⟩

/-- Truthiness of each injected collaborator, destructured from `deps` at
the use-case entry. -/
structure Deps where
  userRepository : Bool
  habitSeriesRepository : Bool
  energyRepository : Bool
  aiProvider : Bool

/-- Modelled from the spec: the provider-agnostic response of one AI
execution (`generateAIResponse` lives in `AIExecutionService.js`, outside
the repository subset); the use case only reads its `content`. -/
structure AIResponse where
  content : JSVal

/-- Modelled from the spec: the outcome of the k-th sequential AI execution
(k = 0 creative, 1 structure, 2 normalize).  Each call either yields a
response or throws (`ProviderExecutionError` and the like); the prompt
builders are pure, so the oracle only needs the call position. -/
structure AIWorld where
  passResult : Nat → Except JSError AIResponse

/-- The observable outcome of one run of the use case: the returned DTO or
the thrown error, the number of AI executions started, and whether the
persistence repository and the user-state side effect were invoked. -/
structure RunResult where
  result : Except JSError HabitSeriesDTO
  aiCalls : Nat
  persistCalled : Bool
  incrementCalled : Bool

/-- The orchestration use case (`createHabitSeries`, source lines 255-364).
In order: the dependency guard and the payload guard (both throwing
`ValidationError`), the three sequential AI passes, the strict JSON parse of
the pass-3 content (only when that content is a string), the defensive
validation, the entity construction `HabitSeries.fromAIOutput(parsed)` (the
parsed value is passed in the `id` position and `input` is `undefined`),
persistence, the user-state side effect, and the DTO return.  The
persistence repository is modelled from the spec as atomic and returning the
persisted entity. -/
def createHabitSeries (payload : JSVal) (deps : Deps) (w : AIWorld)
    (now : Int) : RunResult :=
  if !(deps.userRepository && deps.habitSeriesRepository &&
       deps.energyRepository && deps.aiProvider) then
    ⟨.error ⟨.validationError, "Missing required dependencies"⟩, 0, false, false⟩
  else if isFalsy (getField payload "language") ||
          isFalsy (getField payload "testData") then
    ⟨.error ⟨.validationError, "Missing required payload fields"⟩, 0, false, false⟩
  else
    match w.passResult 0 with
    | .error e => ⟨.error e, 1, false, false⟩
    | .ok _creativeResponse =>
      match w.passResult 1 with
      | .error e => ⟨.error e, 2, false, false⟩
      | .ok _structureResponse =>
        match w.passResult 2 with
        | .error e => ⟨.error e, 3, false, false⟩
        | .ok schemaResponse =>
          let parsedE : Except JSError JSVal :=
            match schemaResponse.content with
            | .str s =>
              match jsonParse s with
              | some v => .ok v
              | none => .error ⟨.validationError, "AI output is not valid JSON"⟩
            | other => .ok other
          match parsedE with
          | .error e => ⟨.error e, 3, false, false⟩
          | .ok parsed =>
            match validateAIOutput parsed with
            | .error e => ⟨.error e, 3, false, false⟩
            | .ok (.invalid msg) =>
              ⟨.error ⟨.validationError, "AI output validation failed: " ++ msg⟩,
                3, false, false⟩
            | .ok .valid =>
              match fromAIOutputJS parsed .undefined now with
              | .error e => ⟨.error e, 3, false, false⟩
              | .ok entity =>
                ⟨.ok entity.toDTO, 3, true, true⟩

/-! ### Spec-side restatements of the validator contract

These definitions follow the wording of the specification (not the source)
and are compared with `validateAIOutput` by the theorems below. -/

/-- Spec wording: the value is accepted as an action when it has non-empty
trimmed `name`, `description` and `difficulty` strings. -/
def goodAction (a : JSVal) : Bool :=
  strFieldOk (getField a "name") && strFieldOk (getField a "description") &&
    strFieldOk (getField a "difficulty")

/-- Spec wording: the validator accepts exactly the candidates with
non-empty trimmed title and description and an actions array of 3 to 5
entries, each a good action. -/
def specAccepts (v : JSVal) : Bool :=
  strFieldOk (getField v "title") && strFieldOk (getField v "description") &&
    (match getField v "actions" with
     | .arr xs => decide (3 ≤ xs.length) && decide (xs.length ≤ 5) && xs.all goodAction
     | _ => false)

/-- Whether the validator accepts the candidate (verdict `valid`, nothing
thrown). -/
def acceptsB (v : JSVal) : Bool :=
  match validateAIOutput v with
  | .ok .valid => true
  | _ => false

/-- One structural rule of the validation contract: whether it passes, and
the field-specific message reported when it is the first to fail. -/
structure SpecCheck where
  passes : Bool
  error : String

/-- Spec wording: the four rules checked for the `i`-th action, in order. -/
def actionChecks (i : Nat) (a : JSVal) : List SpecCheck :=
  [⟨!(isFalsy a) && typeofObject a, "actions[" ++ toString i ++ "] is not an object"⟩,
   ⟨strFieldOk (getField a "name"), "actions[" ++ toString i ++ "].name invalid"⟩,
   ⟨strFieldOk (getField a "description"),
     "actions[" ++ toString i ++ "].description invalid"⟩,
   ⟨strFieldOk (getField a "difficulty"),
     "actions[" ++ toString i ++ "].difficulty invalid"⟩]

/-- The candidate's actions as a list (empty when not an array). -/
def actionsOf (v : JSVal) : List JSVal :=
  match getField v "actions" with
  | .arr xs => xs
  | _ => []

/-- Whether the value is an array (`Array.isArray`). -/
def isArrayB : JSVal → Bool
  | .arr _ => true
  | _ => false

/-- Whether the candidate's actions form an array of length within
`[3, 5]`. -/
def lengthOkB (v : JSVal) : Bool :=
  match getField v "actions" with
  | .arr xs => !(xs.length < 3 || xs.length > 5)
  | _ => false

/-- Spec wording: the fixed ordered list of all rules the validator checks
for a candidate — non-null structured object, title, description, actions
is an array, its length, then each action's rules in sequence order. -/
def specChecks (v : JSVal) : List SpecCheck :=
  [⟨!(isFalsy v) && typeofObject v, "Output is not an object"⟩,
   ⟨strFieldOk (getField v "title"), "Invalid or missing title"⟩,
   ⟨strFieldOk (getField v "description"), "Invalid or missing description"⟩,
   ⟨isArrayB (getField v "actions"), "actions must be an array"⟩,
   ⟨lengthOkB v, "actions length out of bounds"⟩] ++
    ((actionsOf v).enum.map fun p => actionChecks p.1 p.2).flatten

/-- The first violated rule of the ordered contract, if any. -/
def specFirstViolation (v : JSVal) : Option String :=
  ((specChecks v).find? fun c => !c.passes).map SpecCheck.error

/-- The verdict demanded by the spec: `valid` when no rule fails, otherwise
the error of the first violated rule. -/
def specVerdict (v : JSVal) : Verdict :=
  match specFirstViolation v with
  | none => .valid
  | some e => .invalid e

/-! ### Concrete fixtures for the scenario theorems -/

/-- A well-formed action candidate. -/
def wellAction : JSVal :=
  .obj [("name", .str "Read 5 pages"),
    ("description", .str "Read five pages of a book"),
    ("difficulty", .str "easy")]

/-- A candidate with title `T`, description `D` and `n` well-formed
actions. -/
def candidateWithActions (n : Nat) : JSVal :=
  .obj [("title", .str "T"), ("description", .str "D"),
    ("actions", .arr (List.replicate n wellAction))]

/-- The accepted candidate of the spec scenarios. -/
def goodCandidate : JSVal := candidateWithActions 3

/-- The accepted candidate with its title emptied. -/
def candidateEmptyTitle : JSVal :=
  .obj [("title", .str ""), ("description", .str "D"),
    ("actions", .arr (List.replicate 3 wellAction))]

/-- The accepted candidate with a whitespace-only title. -/
def candidateBlankTitle : JSVal :=
  .obj [("title", .str "   "), ("description", .str "D"),
    ("actions", .arr (List.replicate 3 wellAction))]

/-- The accepted candidate whose third action lacks `difficulty`. -/
def candidateNoDifficulty : JSVal :=
  .obj [("title", .str "T"), ("description", .str "D"),
    ("actions", .arr [wellAction, wellAction,
      .obj [("name", .str "Review"), ("description", .str "Review the notes")]])]

/-- All four collaborators wired. -/
def allDeps : Deps := ⟨true, true, true, true⟩

/-- The AI provider collaborator missing. -/
def depsNoProvider : Deps := ⟨true, true, true, false⟩

/-- The well-formed request payload of the end-to-end scenario. -/
def samplePayload : JSVal :=
  .obj [("language", .str "en"), ("testData", .obj [("habit", .str "reading")])]

/-- The scenario payload without its `language` field. -/
def payloadNoLanguage : JSVal :=
  .obj [("testData", .obj [("habit", .str "reading")])]

/-- A world whose AI calls all fail; runs that reject at the entry guard
never consult it. -/
def idleWorld : AIWorld :=
  ⟨fun _ => .error ⟨.genericError, "unreachable"⟩⟩

/-- The world of the end-to-end scenario: creative and structure passes
return free text, the normalization pass returns the given string. -/
def scenarioWorld (s : String) : AIWorld :=
  ⟨fun k =>
    if k = 0 then .ok ⟨.str "creative free text"⟩
    else if k = 1 then .ok ⟨.str "consolidated text"⟩
    else .ok ⟨.str s⟩⟩

/-- The normalization-pass JSON of the end-to-end scenario: title
`Read Daily` and three well-formed actions. -/
def scenarioJson : String :=
  "\x7b\"title\":\"Read Daily\",\"description\":\"A daily reading habit\"," ++
  "\"actions\":[" ++
  "\x7b\"name\":\"Read 5 pages\",\"description\":\"Read five pages\",\"difficulty\":\"easy\"\x7d," ++
  "\x7b\"name\":\"Take notes\",\"description\":\"Write one note\",\"difficulty\":\"moderate\"\x7d," ++
  "\x7b\"name\":\"Review notes\",\"description\":\"Review the notes\",\"difficulty\":\"challenging\"\x7d" ++
  "]\x7d"

/-- The error class of a run's outcome, when it threw. -/
def errorClassOf (r : RunResult) : Option ErrorClass :=
  match r.result with
  | .error e => some e.cls
  | .ok _ => none

/-! ### Validator lemmas -/

/-- A value that is truthy and of object type is not nullish, so property
access on it cannot throw. -/
theorem isNullish_eq_false (a : JSVal) (h : (isFalsy a || !typeofObject a) = false) :
    isNullish a = false := by
  cases a <;> simp_all [isFalsy, typeofObject, isNullish]

/-- Property access on a guarded value reduces to the total lookup. -/
theorem getFieldE_ok (a : JSVal) (h : (isFalsy a || !typeofObject a) = false)
    (k : String) : getFieldE a k = .ok (getField a k) := by
  simp [getFieldE, isNullish_eq_false a h]

/-- A value that fails the object guard has no fields, so it is not a good
action. -/
theorem goodAction_eq_false (a : JSVal)
    (h : (isFalsy a || !typeofObject a) = true) : goodAction a = false := by
  cases a <;> simp_all [isFalsy, typeofObject, goodAction, getField, strFieldOk]

/-- The per-action loop returns `valid` exactly when every action is good;
it never throws on the way. -/
theorem validateActionsE_valid_iff (xs : List JSVal) (i : Nat) :
    validateActionsE xs i = .ok .valid ↔ xs.all goodAction = true := by
  induction xs generalizing i with
  | nil => simp [validateActionsE]
  | cons a rest ih =>
    by_cases hg : (isFalsy a || !typeofObject a) = true
    · simp [validateActionsE, hg, goodAction_eq_false a hg]
    · rw [Bool.not_eq_true] at hg
      simp only [validateActionsE, hg, Bool.false_eq_true, if_false,
        getFieldE_ok a hg, Except.bind]
      by_cases hn : strFieldOk (getField a "name") = true <;>
        by_cases hd : strFieldOk (getField a "description") = true <;>
        by_cases hf : strFieldOk (getField a "difficulty") = true <;>
        simp [hn, hd, hf, goodAction, ih]

/-- `find?` over an append scans the left part first. -/
theorem find_append_or {α : Type} (l1 l2 : List α) (p : α → Bool) :
    (l1 ++ l2).find? p = (l1.find? p).or (l2.find? p) := by
  induction l1 with
  | nil => simp [List.find?]
  | cons a l ih => by_cases h : p a = true <;> simp [List.find?, h, ih]

/-- The per-action loop agrees with the ordered rule list: it reports the
first violated per-action rule (numbering the actions from `i`), or `valid`
when every rule passes. -/
theorem validateActionsE_eq_firstViolation (xs : List JSVal) (i : Nat) :
    validateActionsE xs i =
      .ok (match ((xs.enumFrom i).map fun p => actionChecks p.1 p.2).flatten.find?
            (fun c => !c.passes) with
          | none => Verdict.valid
          | some c => Verdict.invalid c.error) := by
  induction xs generalizing i with
  | nil => rfl
  | cons a rest ih =>
    have henum : (a :: rest).enumFrom i = (i, a) :: rest.enumFrom (i + 1) := rfl
    rw [henum, List.map_cons, List.flatten_cons, find_append_or]
    by_cases hg : (isFalsy a || !typeofObject a) = true
    · have hpass : (!((!(isFalsy a)) && typeofObject a)) = true := by
        cases hx : isFalsy a <;> cases hy : typeofObject a <;> simp_all
      simp [validateActionsE, hg, actionChecks, List.find?, hpass]
    · rw [Bool.not_eq_true] at hg
      have h1 : ((!(isFalsy a)) && typeofObject a) = true := by
        cases hx : isFalsy a <;> cases hy : typeofObject a <;> simp_all
      simp only [validateActionsE, hg, Bool.false_eq_true, if_false,
        getFieldE_ok a hg, Except.bind]
      by_cases hn : strFieldOk (getField a "name") = true <;>
        by_cases hd : strFieldOk (getField a "description") = true <;>
        by_cases hf : strFieldOk (getField a "difficulty") = true <;>
        simp [actionChecks, List.find?, h1, hn, hd, hf, ih, Option.or]

/-- Post-composing the selector of `findSome?` with a map commutes with the
search. -/
theorem findSome_map {α β γ : Type} (l : List α) (f : α → Option β) (g : β → γ) :
    (l.findSome? fun a => (f a).map g) = (l.findSome? f).map g := by
  induction l with
  | nil => rfl
  | cons a t ih => cases h : f a <;> simp [List.findSome?, h, ih]

/-- The validator computes exactly the verdict demanded by the ordered rule
list: `valid` when every rule passes, otherwise the error of the first
violated rule, and it never throws. -/
theorem validateAIOutput_eq_specVerdict (v : JSVal) :
    validateAIOutput v = .ok (specVerdict v) := by
  by_cases hg : (isFalsy v || !typeofObject v) = true
  · have hpass : (!((!(isFalsy v)) && typeofObject v)) = true := by
      cases hx : isFalsy v <;> cases hy : typeofObject v <;> simp_all
    simp [validateAIOutput, hg, specVerdict, specFirstViolation, specChecks,
      List.find?, hpass]
  · rw [Bool.not_eq_true] at hg
    have h1 : ((!(isFalsy v)) && typeofObject v) = true := by
      cases hx : isFalsy v <;> cases hy : typeofObject v <;> simp_all
    simp only [validateAIOutput, hg, Bool.false_eq_true, if_false,
      getFieldE_ok v hg, Except.bind]
    by_cases ht : strFieldOk (getField v "title") = true
    case neg =>
      simp [ht, specVerdict, specFirstViolation, specChecks, List.find?, h1,
        Option.or]
    case pos =>
    by_cases hdsc : strFieldOk (getField v "description") = true
    case neg =>
      simp [ht, hdsc, specVerdict, specFirstViolation, specChecks, List.find?,
        h1, Option.or]
    case pos =>
    cases hact : getField v "actions" with
    | arr xs =>
      by_cases hlen : (xs.length < 3 || xs.length > 5) = true
      · simp [ht, hdsc, hact, hlen, specVerdict, specFirstViolation, specChecks,
          List.find?, h1, isArrayB, lengthOkB, actionsOf, Option.or]
      · simp only [ht, hdsc, hact, hlen, Bool.not_true, if_false, if_true,
          Bool.not_false, Bool.false_eq_true]
        rw [validateActionsE_eq_firstViolation xs 0]
        simp [specVerdict, specFirstViolation, specChecks, List.find?, h1, ht,
          hdsc, hact, isArrayB, lengthOkB, hlen, actionsOf, Option.or,
          List.enum]
        have hcomp : (Option.map SpecCheck.error ∘
            fun x => List.find? (fun c => !c.passes) x) =
            fun x => (List.find? (fun c => !c.passes) x).map SpecCheck.error := rfl
        rw [hcomp, findSome_map]
        cases List.findSome? (fun x => List.find? (fun c => !c.passes) x)
            (List.map (fun p => actionChecks p.1 p.2) (List.enumFrom 0 xs)) <;>
          rfl
    | null =>
      simp [ht, hdsc, hact, specVerdict, specFirstViolation, specChecks,
        List.find?, h1, isArrayB, lengthOkB, actionsOf, Option.or]
    | undefined =>
      simp [ht, hdsc, hact, specVerdict, specFirstViolation, specChecks,
        List.find?, h1, isArrayB, lengthOkB, actionsOf, Option.or]
    | bool b =>
      simp [ht, hdsc, hact, specVerdict, specFirstViolation, specChecks,
        List.find?, h1, isArrayB, lengthOkB, actionsOf, Option.or]
    | num m e =>
      simp [ht, hdsc, hact, specVerdict, specFirstViolation, specChecks,
        List.find?, h1, isArrayB, lengthOkB, actionsOf, Option.or]
    | str s =>
      simp [ht, hdsc, hact, specVerdict, specFirstViolation, specChecks,
        List.find?, h1, isArrayB, lengthOkB, actionsOf, Option.or]
    | obj fields =>
      simp [ht, hdsc, hact, specVerdict, specFirstViolation, specChecks,
        List.find?, h1, isArrayB, lengthOkB, actionsOf, Option.or]

/-- The validator accepts exactly the candidates described by the spec
predicate `specAccepts`. -/
theorem acceptsB_eq_specAccepts (v : JSVal) : acceptsB v = specAccepts v := by
  by_cases hg : (isFalsy v || !typeofObject v) = true
  · have hspec : specAccepts v = false := by
      cases v <;> simp_all [specAccepts, getField, strFieldOk, isFalsy, typeofObject]
    simp [acceptsB, validateAIOutput, hg, hspec]
  · rw [Bool.not_eq_true] at hg
    simp only [acceptsB, validateAIOutput, hg, Bool.false_eq_true, if_false,
      getFieldE_ok v hg, Except.bind]
    by_cases ht : strFieldOk (getField v "title") = true
    case neg => simp [ht, specAccepts]
    case pos =>
    by_cases hdsc : strFieldOk (getField v "description") = true
    case neg => simp [ht, hdsc, specAccepts]
    case pos =>
    cases hact : getField v "actions" with
    | arr xs =>
      by_cases hlen : (xs.length < 3 || xs.length > 5) = true
      · have hb : xs.length < 3 ∨ xs.length > 5 := by simpa using hlen
        have hbounds : (decide (3 ≤ xs.length) && decide (xs.length ≤ 5)) = false := by
          rcases hb with h | h <;> simp <;> omega
        simp [ht, hdsc, hact, hlen, specAccepts, hbounds]
      · have hb : 3 ≤ xs.length ∧ xs.length ≤ 5 := by
          simp at hlen
          omega
        have hbounds : (decide (3 ≤ xs.length) && decide (xs.length ≤ 5)) = true := by
          simp [hb.1, hb.2]
        simp only [ht, hdsc, hact, hlen, Bool.not_true, if_false, if_true,
          Bool.false_eq_true, specAccepts, hbounds, Bool.true_and, Bool.and_true]
        rcases hres : validateActionsE xs 0 with e | verdict
        · rw [validateActionsE_eq_firstViolation xs 0] at hres
          cases hres
        · cases verdict with
          | valid =>
            have hall := (validateActionsE_valid_iff xs 0).mp hres
            simp [hall]
          | invalid msg =>
            by_cases hall : xs.all goodAction = true
            · have := (validateActionsE_valid_iff xs 0).mpr hall
              rw [hres] at this
              cases this
            · simp [Bool.not_eq_true] at hall
              simp [hall]
    | null => simp [ht, hdsc, hact, specAccepts]
    | undefined => simp [ht, hdsc, hact, specAccepts]
    | bool b => simp [ht, hdsc, hact, specAccepts]
    | num m e => simp [ht, hdsc, hact, specAccepts]
    | str s => simp [ht, hdsc, hact, specAccepts]
    | obj fields => simp [ht, hdsc, hact, specAccepts]

/-- Bridge between `String.isEmpty` and the character count. -/
theorem isEmpty_eq_decide (s : String) : s.isEmpty = decide (s.length = 0) := by
  by_cases h : s = ""
  · subst h; rfl
  · have h1 : s.isEmpty = false := by
      rw [Bool.eq_false_iff]
      intro hc
      exact h ((String.isEmpty_iff s).mp hc)
    have h2 : s.length ≠ 0 := by
      intro hc
      apply h
      cases s with
      | mk data =>
        simp [String.length] at hc
        simp [hc]
    simp [h1, h2]

/-! ### The claims -/

set_option maxRecDepth 100000 in
/-- C1.  The claim states that when the three passes succeed and the
normalization output is a validated JSON object (the `Read Daily` scenario
with 3 actions), `createHabitSeries` builds the entity through the factory
and returns a DTO with matching title and action count.  The code cannot do
this: it calls the two-parameter factory `HabitSeries.fromAIOutput(id,
input)` with the single argument `parsed`, so `input` is `undefined` and
evaluating `input.actions.map` throws a TypeError.  This theorem evaluates
the pipeline at exactly the claim's scenario: the scenario JSON parses and
passes validation, yet the run throws the TypeError and never reaches
persistence, instead of returning the promised DTO. -/
theorem claim_c1_factory_arity_crash :
    (∃ parsed, jsonParse scenarioJson = some parsed ∧
      validateAIOutput parsed = .ok .valid) ∧
    (createHabitSeries samplePayload allDeps (scenarioWorld scenarioJson) 0).result =
      .error ⟨.typeError, "Cannot read properties of undefined (reading actions)"⟩ ∧
    (createHabitSeries samplePayload allDeps (scenarioWorld scenarioJson) 0).persistCalled
      = false :=
  ⟨⟨_, rfl, rfl⟩, rfl, rfl⟩

/-- C2.  Whenever the entry guards pass, the first two passes succeed, and
the normalization pass yields a string that does not parse as JSON, the
pipeline throws the `AI output is not valid JSON` ValidationError (the
spec's `MalformedOutputError`) and the persistence repository is never
invoked; the parse is attempted once, with no fallback path. -/
theorem claim_c2_malformed_output_no_persistence (deps : Deps) (payload : JSVal)
    (w : AIWorld) (now : Int) (s : String)
    (hdeps : (deps.userRepository && deps.habitSeriesRepository &&
      deps.energyRepository && deps.aiProvider) = true)
    (hpay : (isFalsy (getField payload "language") ||
      isFalsy (getField payload "testData")) = false)
    (h0 : ∃ r0, w.passResult 0 = .ok r0)
    (h1 : ∃ r1, w.passResult 1 = .ok r1)
    (h2 : w.passResult 2 = .ok ⟨.str s⟩)
    (hparse : jsonParse s = none) :
    (createHabitSeries payload deps w now).result =
      .error ⟨.validationError, "AI output is not valid JSON"⟩ ∧
    (createHabitSeries payload deps w now).persistCalled = false := by
  obtain ⟨r0, h0⟩ := h0
  obtain ⟨r1, h1⟩ := h1
  simp [createHabitSeries, hdeps, hpay, h0, h1, h2, hparse]

/-- Witness for C2: the scenario where the normalization pass returns
`not json`. -/
theorem claim_c2_witness :
    jsonParse "not json" = none ∧
    (createHabitSeries samplePayload allDeps (scenarioWorld "not json") 0).result =
      .error ⟨.validationError, "AI output is not valid JSON"⟩ ∧
    (createHabitSeries samplePayload allDeps (scenarioWorld "not json") 0).persistCalled
      = false := by
  have h := claim_c2_malformed_output_no_persistence allDeps samplePayload
    (scenarioWorld "not json") 0 "not json" rfl rfl
    ⟨⟨.str "creative free text"⟩, rfl⟩ ⟨⟨.str "consolidated text"⟩, rfl⟩ rfl rfl
  exact ⟨rfl, h.1, h.2⟩

/-- C3.  The router maps `gpt-4o-mini` and `o1-preview` to the OpenAI
adapter and `gemini-2.5-flash` / `gemini-2.5-pro` to the Gemini adapter;
`mistral-large`, the empty string, and every non-string model value throw
(the spec's `UnknownProviderError` taxonomy), with no fallback adapter on
any error path. -/
theorem claim_c3_router_resolution :
    getAdapterForModel (.str "gpt-4o-mini") = .ok .openai ∧
    getAdapterForModel (.str "o1-preview") = .ok .openai ∧
    getAdapterForModel (.str "gemini-2.5-flash") = .ok .gemini ∧
    getAdapterForModel (.str "gemini-2.5-pro") = .ok .gemini ∧
    getAdapterForModel (.str "mistral-large") = .error ⟨.genericError,
      "UNKNOWN_MODEL_PROVIDER: No adapter configured for model mistral-large"⟩ ∧
    getAdapterForModel (.str "") = .error ⟨.genericError,
      "INVALID_MODEL: Model name is required"⟩ ∧
    ∀ v : JSVal, isStringV v = false →
      getAdapterForModel v = .error ⟨.genericError,
        "INVALID_MODEL: Model name is required"⟩ := by
  refine ⟨rfl, rfl, rfl, rfl, rfl, rfl, fun v hv => ?_⟩
  cases v <;> simp_all [getAdapterForModel, isStringV]

/-- Witness for C3: the number `5` is a non-string model identifier and is
rejected. -/
theorem claim_c3_witness :
    isStringV (.num 5 0) = false ∧
    getAdapterForModel (.num 5 0) = .error ⟨.genericError,
      "INVALID_MODEL: Model name is required"⟩ :=
  ⟨rfl, claim_c3_router_resolution.2.2.2.2.2.2 (.num 5 0) rfl⟩

/-- C4, counterexample.  The claim says the two entry-guard rejections carry
distinct error kinds (`MissingDependencyError` vs `InvalidPayloadError`).
In the code both raise the same `ValidationError` class — only the messages
differ — so the kinds coincide. -/
theorem claim_c4_counterexample :
    errorClassOf (createHabitSeries samplePayload depsNoProvider idleWorld 0) =
      errorClassOf (createHabitSeries payloadNoLanguage allDeps idleWorld 0) ∧
    errorClassOf (createHabitSeries samplePayload depsNoProvider idleWorld 0) =
      some .validationError ∧
    (createHabitSeries samplePayload depsNoProvider idleWorld 0).result =
      .error ⟨.validationError, "Missing required dependencies"⟩ ∧
    (createHabitSeries payloadNoLanguage allDeps idleWorld 0).result =
      .error ⟨.validationError, "Missing required payload fields"⟩ :=
  ⟨rfl, rfl, rfl, rfl⟩

/-- C4, amended.  The entry guard rejects with
`ValidationError: Missing required dependencies` when any collaborator is
absent, and with `ValidationError: Missing required payload fields` — the
same error kind, a different message — when `language` or `testData` is
falsy; both rejections happen before any AI call (zero calls started) and
without touching persistence. -/
theorem claim_c4_guard_before_any_ai_call (deps : Deps) (payload : JSVal)
    (w : AIWorld) (now : Int) :
    ((deps.userRepository && deps.habitSeriesRepository &&
        deps.energyRepository && deps.aiProvider) = false →
      createHabitSeries payload deps w now =
        ⟨.error ⟨.validationError, "Missing required dependencies"⟩, 0, false, false⟩) ∧
    ((deps.userRepository && deps.habitSeriesRepository &&
        deps.energyRepository && deps.aiProvider) = true →
      (isFalsy (getField payload "language") ||
        isFalsy (getField payload "testData")) = true →
      createHabitSeries payload deps w now =
        ⟨.error ⟨.validationError, "Missing required payload fields"⟩, 0, false, false⟩) := by
  constructor
  · intro h
    simp [createHabitSeries, h]
  · intro h hp
    simp [createHabitSeries, h, hp]

/-- Witness for C4 (amended): a missing provider and a missing language
each reject before any AI call. -/
theorem claim_c4_witness :
    (depsNoProvider.userRepository && depsNoProvider.habitSeriesRepository &&
      depsNoProvider.energyRepository && depsNoProvider.aiProvider) = false ∧
    createHabitSeries samplePayload depsNoProvider idleWorld 0 =
      ⟨.error ⟨.validationError, "Missing required dependencies"⟩, 0, false, false⟩ ∧
    (isFalsy (getField payloadNoLanguage "language") ||
      isFalsy (getField payloadNoLanguage "testData")) = true ∧
    createHabitSeries payloadNoLanguage allDeps idleWorld 0 =
      ⟨.error ⟨.validationError, "Missing required payload fields"⟩, 0, false, false⟩ :=
  ⟨rfl, (claim_c4_guard_before_any_ai_call depsNoProvider samplePayload idleWorld 0).1 rfl,
    rfl, (claim_c4_guard_before_any_ai_call allDeps payloadNoLanguage idleWorld 0).2 rfl rfl⟩

/-- C5.  The validator accepts the `T`/`D` candidate with 3 well-formed
actions and rejects it with 2 or 6 actions, with an empty or
whitespace-only title, or with an action lacking `difficulty`; in general
it accepts exactly the candidates described by `specAccepts`. -/
theorem claim_c5_validator_accepts_exactly :
    validateAIOutput goodCandidate = .ok .valid ∧
    validateAIOutput (candidateWithActions 2) =
      .ok (.invalid "actions length out of bounds") ∧
    validateAIOutput (candidateWithActions 6) =
      .ok (.invalid "actions length out of bounds") ∧
    validateAIOutput candidateEmptyTitle = .ok (.invalid "Invalid or missing title") ∧
    validateAIOutput candidateBlankTitle = .ok (.invalid "Invalid or missing title") ∧
    validateAIOutput candidateNoDifficulty =
      .ok (.invalid "actions[2].difficulty invalid") ∧
    ∀ v : JSVal, acceptsB v = specAccepts v :=
  ⟨rfl, rfl, rfl, rfl, rfl, rfl, acceptsB_eq_specAccepts⟩

/-- C6.  For every candidate the validator performs the contract's checks
in the fixed documented order, short-circuits on the first failure, and
reports exactly the first violated rule: it computes the verdict of the
ordered rule list `specChecks`. -/
theorem claim_c6_first_violation_in_order (v : JSVal) :
    validateAIOutput v = .ok (specVerdict v) :=
  validateAIOutput_eq_specVerdict v

/-- C7.  `isHabitSeriesFinal` is true on the structural pass identifier and
false on the creative pass identifier and on every other identifier. -/
theorem claim_c7_only_structure_is_final :
    isHabitSeriesFinal "habit_series_structure" = true ∧
    isHabitSeriesFinal "habit_series_creative" = false ∧
    ∀ s : String, s ≠ "habit_series_structure" → isHabitSeriesFinal s = false := by
  refine ⟨rfl, rfl, fun s h => ?_⟩
  simpa [isHabitSeriesFinal] using h

/-- Witness for C7: the normalization pass identifier is not
persist-eligible. -/
theorem claim_c7_witness :
    "json_conversion" ≠ "habit_series_structure" ∧
    isHabitSeriesFinal "json_conversion" = false :=
  ⟨by decide, claim_c7_only_structure_is_final.2.2 "json_conversion" (by decide)⟩

/-- C8.  Gemini energy accounting is a function of the prompt length and
the response length alone: two prompt/response pairs of equal lengths get
the same energy (and the computation involves no other inputs, so repeated
runs agree). -/
theorem claim_c8_energy_depends_only_on_lengths (p1 r1 p2 r2 : String)
    (hp : p1.length = p2.length) (hr : r1.length = r2.length) :
    calculateGeminiEnergy p1 r1 = calculateGeminiEnergy p2 r2 := by
  have tok : ∀ s1 s2 : String, s1.length = s2.length →
      calculateGeminiTokens s1 = calculateGeminiTokens s2 := by
    intro s1 s2 h
    simp [calculateGeminiTokens, isEmpty_eq_decide, h]
  simp [calculateGeminiEnergy, tok p1 p2 hp, tok r1 r2 hr]

/-- Witness for C8: distinct texts of equal lengths cost the same energy. -/
theorem claim_c8_witness :
    "ab".length = "xy".length ∧ "pqr".length = "uvw".length ∧
    calculateGeminiEnergy "ab" "pqr" = calculateGeminiEnergy "xy" "uvw" :=
  ⟨rfl, rfl, claim_c8_energy_depends_only_on_lengths "ab" "pqr" "xy" "uvw" rfl rfl⟩

/-- C9.  Every entity the factory builds from AI input has rank BRONZE,
total score 0, and creation and last-activity timestamps equal to the
creation instant — no AI input can influence them. -/
theorem claim_c9_safe_defaults (id : String) (input : AIHabitSeriesInput) (now : Int) :
    (HabitSeries.fromAIOutput id input now).rank = Rank.bronze ∧
    (HabitSeries.fromAIOutput id input now).totalScore = 0 ∧
    (HabitSeries.fromAIOutput id input now).createdAt =
      (HabitSeries.fromAIOutput id input now).lastActivityAt :=
  ⟨rfl, rfl, rfl⟩

/-- C10.  The validator is total: on every input value it returns a verdict
and never throws, even though property access in the model can throw — all
accesses sit behind the object guards. -/
theorem claim_c10_validator_never_throws (v : JSVal) :
    ∃ verdict, validateAIOutput v = .ok verdict :=
  ⟨specVerdict v, validateAIOutput_eq_specVerdict v⟩

end HabitApp
